import Mathlib

/-!
Verification development for the ImageBuf core of OpenImageIO
(`src/include/OpenImageIO/imagebuf.h`): a shallow embedding of the
buffer's storage state machine, the generic pixel get/set paths, and the
`IteratorBase` pixel cursor, together with theorems checking the
natural-language specification against the code.

Machine integers of the C++ source (`int`, `stride_t`) are modelled as
`Int`; pixel element values are modelled as `Int` (one abstract scalar
per channel); pointers (`char* m_proxydata`, tile handles) are modelled
as integer offsets from the buffer's base address, with `-1` standing
for "not a real pixel address" (the shared black pixel).

Functions whose bodies are inline in the header are translated from the
source.  Functions that the header only declares (their bodies live in
`imagebuf.cpp`, which is not part of the reviewed surface) are modelled
from the spec; each such definition carries a doc comment beginning
`Modelled from the spec:`.
-/

set_option autoImplicit false

namespace OIIO

/-- Storage modes of an `ImageBuf`, from the `IBStorage` enum in the
header: uninitialized, locally-owned memory, app-owned ("wrapped")
memory, or backed by an ImageCache. -/
inductive IBStorage where
  | UNINITIALIZED
  | LOCALBUFFER
  | APPBUFFER
  | IMAGECACHE
deriving DecidableEq, Repr

/-- Wrap modes from the `WrapMode` enum in the header (the `_WrapLast`
count sentinel is omitted). -/
inductive WrapMode where
  | WrapDefault
  | WrapBlack
  | WrapClamp
  | WrapPeriodic
  | WrapMirror
deriving DecidableEq, Repr

/-- Pixel element types, modelling `TypeDesc`: only the distinctions the
claims need (unknown vs. a few concrete element types). -/
inductive TypeDesc where
  | UNKNOWN
  | UINT8
  | HALF
  | FLOAT
deriving DecidableEq, Repr

/-- The shape part of `ImageSpec`: data-window origin (x,y,z),
resolution (width,height,depth) and channel count.  All `int` in the
source, so `Int` here. -/
structure ImageSpec where
  x : Int
  y : Int
  z : Int
  width : Int
  height : Int
  depth : Int
  nchannels : Int

/-- Membership of a coordinate in the data window described by a spec. -/
def ImageSpec.contains (s : ImageSpec) (x y z : Int) : Prop :=
  s.x ≤ x ∧ x < s.x + s.width ∧ s.y ≤ y ∧ y < s.y + s.height
    ∧ s.z ≤ z ∧ z < s.z + s.depth

instance (s : ImageSpec) (x y z : Int) : Decidable (s.contains x y z) := by
  unfold ImageSpec.contains; infer_instance

/-- The `ImageBuf` model: storage mode, spec, strides, pixel content as
a total function from (x, y, z, channel) to the stored element value.
`allocReadOk` models whether a full read into freshly allocated local
memory would succeed (allocation + I/O), which the header leaves to the
out-of-line implementation.  `tilewidth`/`tileheight`/`tiledepth` are
the cache tile dimensions used when storage is `IMAGECACHE`. -/
structure ImageBuf where
  storage : IBStorage
  spec : ImageSpec
  pixformat : TypeDesc
  deep : Bool
  pixels : Int → Int → Int → Int → Int
  pixel_stride : Int
  scanline_stride : Int
  z_stride : Int
  tilewidth : Int
  tileheight : Int
  tiledepth : Int
  allocReadOk : Bool

/-- Modelled from the spec: `ImageBuf::make_writable` is declared in the
header but implemented out of line.  Per the header documentation and
§4.1 of the spec: if storage is `IMAGECACHE` it forces a full read into
freshly allocated local memory (entering `LOCALBUFFER`), returning false
only on allocation/read failure; it has no effect (and returns true) for
any other storage mode.  The pixel content observed after a successful
promotion is the content the cache was serving. -/
def ImageBuf.make_writable (b : ImageBuf) : Bool × ImageBuf :=
  if b.storage = IBStorage.IMAGECACHE then
    if b.allocReadOk then
      (true, { b with storage := IBStorage.LOCALBUFFER })
    else (false, b)
  else (true, b)

/-- Address offset (from the buffer base) of pixel (x,y,z), using the
buffer's strides; models `char*` pointer arithmetic into local pixels or
into the current tile's backing store. -/
def ImageBuf.pixeladdr (b : ImageBuf) (x y z : Int) : Int :=
  (z - b.spec.z) * b.z_stride + (y - b.spec.y) * b.scanline_stride
    + (x - b.spec.x) * b.pixel_stride

/-- Sentinel address modelling the shared all-black pixel returned by
`ImageBuf::blackpixel()`: not an address inside any buffer. -/
def blackaddr : Int := -1

/-- The pixel-cursor state, with exactly the fields of
`ImageBuf::IteratorBase` in the header.  `m_ib` is the buffer the
cursor ranges over (a pointer in the source); `m_tile` models whether a
cache tile handle is currently held (non-null `ImageCacheTile*`);
`m_proxydata` models the proxy data pointer as an offset from the
buffer base (`blackaddr` when it does not point at a real pixel). -/
structure IteratorBase where
  m_ib : ImageBuf
  m_valid : Bool
  m_exists : Bool
  m_deep : Bool
  m_localpixels : Bool
  m_img_xbegin : Int
  m_img_xend : Int
  m_img_ybegin : Int
  m_img_yend : Int
  m_img_zbegin : Int
  m_img_zend : Int
  m_rng_xbegin : Int
  m_rng_xend : Int
  m_rng_ybegin : Int
  m_rng_yend : Int
  m_rng_zbegin : Int
  m_rng_zend : Int
  m_x : Int
  m_y : Int
  m_z : Int
  m_tile : Bool
  m_tilexbegin : Int
  m_tileybegin : Int
  m_tilezbegin : Int
  m_tilexend : Int
  m_nchannels : Int
  m_pixel_stride : Int
  m_proxydata : Int
  m_wrap : WrapMode
  m_readerror : Bool
  m_pixeltype : TypeDesc

namespace IteratorBase

/-- Translated from the header: `done()` — the cursor is finished iff it
is invalid and sits at exactly the spot reached after iterating off the
last pixel of the range: (rangeXBegin, rangeYBegin, rangeZEnd). -/
def done (it : IteratorBase) : Bool :=
  it.m_valid == false && it.m_x == it.m_rng_xbegin
    && it.m_y == it.m_rng_ybegin && it.m_z == it.m_rng_zend

/-- Translated from the header: the three-argument `valid(x,y,z)` —
is the location within the designated iteration range? -/
def valid_at (it : IteratorBase) (x y z : Int) : Bool :=
  decide (x ≥ it.m_rng_xbegin ∧ x < it.m_rng_xend ∧ y ≥ it.m_rng_ybegin
    ∧ y < it.m_rng_yend ∧ z ≥ it.m_rng_zbegin ∧ z < it.m_rng_zend)

/-- Translated from the header: the three-argument `exists(x,y,z)` —
is the location within the buffer's data window? -/
def exists_at (it : IteratorBase) (x y z : Int) : Bool :=
  decide (x ≥ it.m_img_xbegin ∧ x < it.m_img_xend ∧ y ≥ it.m_img_ybegin
    ∧ y < it.m_img_yend ∧ z ≥ it.m_img_zbegin ∧ z < it.m_img_zend)

/-- Modelled from the spec: `ImageBuf::retile` is declared in the header
but implemented out of line.  Per §4.4 of the spec, retiling requests
the tile covering the cursor's position, updates the tile-window bounds
and the proxy pointer.  When the position does not exist in the data
window (`e = false`) no real tile covers it and the proxy pointer falls
back to the black pixel.  Tile origins are aligned to the data-window
origin in multiples of the tile size. -/
def retile (it : IteratorBase) (e : Bool) : IteratorBase :=
  if e then
    let tw := it.m_ib.tilewidth
    let th := it.m_ib.tileheight
    let td := it.m_ib.tiledepth
    let txb := it.m_img_xbegin + ((it.m_x - it.m_img_xbegin) / tw) * tw
    let tyb := it.m_img_ybegin + ((it.m_y - it.m_img_ybegin) / th) * th
    let tzb := it.m_img_zbegin + ((it.m_z - it.m_img_zbegin) / td) * td
    { it with
      m_tile := true
      m_tilexbegin := txb
      m_tileybegin := tyb
      m_tilezbegin := tzb
      m_tilexend := min (txb + tw) it.m_img_xend
      m_proxydata := it.m_ib.pixeladdr it.m_x it.m_y it.m_z }
  else
    { it with m_tile := false, m_proxydata := blackaddr }

/-- Modelled from the spec: `pos_xincr_local_past_end` is declared in
the header but implemented out of line.  It handles the case of running
one pixel past the local buffer's right edge: the position no longer
exists in the data window, and the proxy pointer no longer points at a
stored pixel of the row (the wrap policy governs what a read would
see). -/
def pos_xincr_local_past_end (it : IteratorBase) : IteratorBase :=
  { it with m_exists := false, m_proxydata := blackaddr }

/-- Translated from the header: `pos_xincr()`, the shortcut used by
`operator++` when only x was incremented and the previous position was
within the data window.  In local-pixels mode it advances the proxy
pointer by one pixel stride, fixing up only if it ran off the image's
right edge; in cached (non-deep) mode it advances the pointer and falls
back to a retile when the new x crossed the current tile's x-extent,
left the data window, or no tile is held. -/
def pos_xincr (it : IteratorBase) : IteratorBase :=
  if it.m_localpixels then
    let it1 := { it with m_proxydata := it.m_proxydata + it.m_pixel_stride }
    if it1.m_x ≥ it1.m_img_xend then it1.pos_xincr_local_past_end else it1
  else if !it.m_deep then
    let it1 := { it with m_proxydata := it.m_proxydata + it.m_pixel_stride }
    let e := decide (it1.m_x < it1.m_img_xend)
    if !(e && decide (it1.m_x < it1.m_tilexend) && it1.m_tile) then
      { it1.retile e with m_exists := e }
    else it1
  else it

/-- Modelled from the spec: `pos(x,y,z)` is declared in the header but
implemented out of line.  Per §4.4 of the spec, absolute repositioning
recomputes `valid` and `exists` against the range and the data window
respectively and, when cache-backed, re-acquires the owning tile (for
local pixels the proxy pointer is recomputed from the strides). -/
def pos (it : IteratorBase) (x y z : Int) : IteratorBase :=
  let v := it.valid_at x y z
  let e := it.exists_at x y z
  let it1 := { it with m_x := x, m_y := y, m_z := z, m_valid := v, m_exists := e }
  if e then
    if it1.m_localpixels then
      { it1 with m_proxydata := it1.m_ib.pixeladdr x y z }
    else if !it1.m_deep then it1.retile true
    else it1
  else { it1 with m_proxydata := blackaddr }

/-- Translated from the header: `operator++()`.  Increment x; if still
inside the range row and the previous position existed, take the
`pos_xincr` shortcut; otherwise wrap x to the range's x-begin and
advance y (and, on y overflow, z); overflowing the final z plane just
clears `m_valid` and returns; every other non-shortcut path ends in a
full `pos` call. -/
def inc (it : IteratorBase) : IteratorBase :=
  let it1 := { it with m_x := it.m_x + 1 }
  if it1.m_x < it1.m_rng_xend then
    if it1.m_exists then it1.pos_xincr
    else it1.pos it1.m_x it1.m_y it1.m_z
  else
    let it2 := { it1 with m_x := it1.m_rng_xbegin, m_y := it1.m_y + 1 }
    if it2.m_y ≥ it2.m_rng_yend then
      let it3 := { it2 with m_y := it2.m_rng_ybegin, m_z := it2.m_z + 1 }
      if it3.m_z ≥ it3.m_rng_zend then
        { it3 with m_valid := false }
      else it3.pos it3.m_x it3.m_y it3.m_z
    else it2.pos it2.m_x it2.m_y it2.m_z

/-- Iterate `inc` n times (the n-fold `operator++`). -/
def incN (it : IteratorBase) : Nat → IteratorBase
  | 0 => it
  | n + 1 => (it.incN n).inc

end IteratorBase

end OIIO

namespace OIIO

/-- Modelled from the spec: `ROI` (RegionOfInterest) lives in a header
outside the reviewed surface; per §3 of the spec it is six integer
bounds (x,y,z begin/end) plus a channel begin/end. -/
structure ROI where
  xbegin : Int
  xend : Int
  ybegin : Int
  yend : Int
  zbegin : Int
  zend : Int
  chbegin : Int
  chend : Int

/-- Membership of a coordinate in a region of interest. -/
def ROI.contains (r : ROI) (x y z : Int) : Prop :=
  r.xbegin ≤ x ∧ x < r.xend ∧ r.ybegin ≤ y ∧ y < r.yend
    ∧ r.zbegin ≤ z ∧ z < r.zend

instance (r : ROI) (x y z : Int) : Decidable (r.contains x y z) := by
  unfold ROI.contains; infer_instance

/-- Translated from the header: `IteratorBase::range()` returns the
iteration range as a ROI whose channel range is 0..m_nchannels. -/
def IteratorBase.range (it : IteratorBase) : ROI :=
  { xbegin := it.m_rng_xbegin, xend := it.m_rng_xend
    ybegin := it.m_rng_ybegin, yend := it.m_rng_yend
    zbegin := it.m_rng_zbegin, zend := it.m_rng_zend
    chbegin := 0, chend := it.m_nchannels }

/-- Modelled from the spec: element-type conversion (PixelTypeConverter,
out of line).  Conversion between identical element types is the
identity; conversion to a narrow normalized integer type clamps to its
representable range; the wide types represent every model value
exactly. -/
def convert_value (src dst : TypeDesc) (v : Int) : Int :=
  if src = dst then v
  else
    match dst with
    | TypeDesc.UINT8 => max 0 (min v 255)
    | _ => v

/-- Modelled from the spec: `ImageBuf::copy_pixels(src)` is declared in
the header but implemented out of line.  Per the header documentation,
it copies, converting to the destination's existing data format, only
the pixels (and channels) in the overlap of the two data windows;
destination pixels that do not exist in `src` are set to 0, and source
pixels that do not exist in the destination are not copied (the
destination keeps its own spec and storage). -/
def ImageBuf.copy_pixels (dst src : ImageBuf) : ImageBuf :=
  { dst with pixels := fun x y z c =>
      if dst.spec.contains x y z ∧ 0 ≤ c ∧ c < dst.spec.nchannels then
        if src.spec.contains x y z ∧ c < src.spec.nchannels then
          convert_value src.pixformat dst.pixformat (src.pixels x y z c)
        else 0
      else dst.pixels x y z c }

/-- Modelled from the spec: `ImageBuf::copy(src, format)` is declared in
the header but implemented out of line.  Per the header documentation:
if the destination has `APPBUFFER` storage its memory cannot be
re-allocated, so the call succeeds only when the app buffer already has
the same resolution and channel count as `src`, pixel values being
converted to the app buffer's existing data type with the `format`
parameter ignored; for any other previous state, local memory is
(re)allocated (the buffer enters `LOCALBUFFER` with `src`'s spec) and
the call succeeds unless allocation fails, using `format` as the pixel
type (or `src`'s type when `format` is UNKNOWN). -/
def ImageBuf.copy (dst src : ImageBuf) (format : TypeDesc) : Bool × ImageBuf :=
  if dst.storage = IBStorage.APPBUFFER then
    if dst.spec.width = src.spec.width ∧ dst.spec.height = src.spec.height
        ∧ dst.spec.depth = src.spec.depth
        ∧ dst.spec.nchannels = src.spec.nchannels then
      (true, { dst with pixels := fun x y z c =>
                convert_value src.pixformat dst.pixformat (src.pixels x y z c) })
    else (false, dst)
  else
    let fmt := if format = TypeDesc.UNKNOWN then src.pixformat else format
    if dst.allocReadOk then
      (true, { dst with
                storage := IBStorage.LOCALBUFFER,
                spec := src.spec,
                pixformat := fmt,
                pixels := fun x y z c =>
                  convert_value src.pixformat fmt (src.pixels x y z c) })
    else (false, dst)

/-- Modelled from the spec: `ImageBuf::get_pixels(roi, format, buffer)`
is declared in the header but implemented out of line.  Per §4.2 of the
spec it copies the rectangle of pixels spanning the ROI into the
caller's buffer, converted to the requested element type; requested
pixels or channels that do not exist in the buffer's data window read
as 0.  The caller's memory block is modelled as a function from
coordinates and channel to the value stored there. -/
def ImageBuf.get_pixels (b : ImageBuf) (roi : ROI) (format : TypeDesc) :
    Int → Int → Int → Int → Int :=
  fun x y z c =>
    if roi.contains x y z ∧ roi.chbegin ≤ c ∧ c < roi.chend then
      if b.spec.contains x y z ∧ 0 ≤ c ∧ c < b.spec.nchannels then
        convert_value b.pixformat format (b.pixels x y z c)
      else 0
    else 0

/-- Modelled from the spec: `ImageBuf::set_pixels(roi, format, buffer)`
is declared in the header but implemented out of line.  Per §4.2 of the
spec it copies the caller's values into the rectangle of pixels of the
ROI, converting from the given element type; only pixels and channels
lying in both the ROI and the buffer's data window are written. -/
def ImageBuf.set_pixels (b : ImageBuf) (roi : ROI) (format : TypeDesc)
    (data : Int → Int → Int → Int → Int) : ImageBuf :=
  { b with pixels := fun x y z c =>
      if roi.contains x y z ∧ roi.chbegin ≤ c ∧ c < roi.chend
          ∧ b.spec.contains x y z ∧ 0 ≤ c ∧ c < b.spec.nchannels then
        convert_value format b.pixformat (data x y z c)
      else b.pixels x y z c }

/-- Modelled from the spec: the out-of-line `setpixel(x, y, z, pixel)`
writes min(span length, nchannels) channel values at pixel (x,y,z),
converted from float to the buffer's type; coordinates outside the data
window address no stored pixel.  The span of floats is modelled as a
list of model values. -/
def ImageBuf.setpixel3 (b : ImageBuf) (x y z : Int) (pixel : List Int) : ImageBuf :=
  { b with pixels := fun px py pz c =>
      if px = x ∧ py = y ∧ pz = z ∧ b.spec.contains px py pz
          ∧ 0 ≤ c ∧ c < b.spec.nchannels ∧ c < (pixel.length : Int) then
        convert_value TypeDesc.FLOAT b.pixformat (pixel.getD c.toNat 0)
      else b.pixels px py pz c }

/-- Translated from the header: `setpixel(x, y, pixel)` forwards to
`setpixel(x, y, 0, pixel)`. -/
def ImageBuf.setpixel2 (b : ImageBuf) (x y : Int) (pixel : List Int) : ImageBuf :=
  b.setpixel3 x y 0 pixel

/-- Translated from the header: the linear-index overload
`setpixel(i, pixel)` computes `spec().x + (i % spec().width)` and
`spec().y + (i / spec().width)` and forwards to the two-argument
`setpixel`.  C++ `%` and `/` on `int` truncate toward zero, i.e.
`Int.tmod` and `Int.tdiv`. -/
def ImageBuf.setpixel_i (b : ImageBuf) (i : Int) (pixel : List Int) : ImageBuf :=
  b.setpixel2 (b.spec.x + Int.tmod i b.spec.width)
    (b.spec.y + Int.tdiv i b.spec.width) pixel

/-- Modelled from the spec: remapping of one coordinate by a wrap
policy (§4.4): `WrapClamp` clamps to the nearest in-window coordinate,
`WrapPeriodic` reduces modulo the window extent, `WrapMirror` reflects
at the boundaries; `WrapBlack` (and `WrapDefault`) leave the coordinate
unchanged (the caller then reads black). -/
def wrap_coord (wrap : WrapMode) (origin size c : Int) : Int :=
  match wrap with
  | WrapMode.WrapClamp => max origin (min c (origin + size - 1))
  | WrapMode.WrapPeriodic => origin + (c - origin) % size
  | WrapMode.WrapMirror =>
      let m := (c - origin) % (2 * size)
      if m < size then origin + m else origin + (2 * size - 1 - m)
  | _ => c

/-- Modelled from the spec: `ImageBuf::do_wrap(x, y, z, wrap)` is
declared in the header but implemented out of line.  Given coordinates,
it alters x, y, z per the wrap mode and returns whether the resulting
coordinate lies within the data window. -/
def ImageBuf.do_wrap (b : ImageBuf) (x y z : Int) (wrap : WrapMode) :
    Bool × Int × Int × Int :=
  let x1 := wrap_coord wrap b.spec.x b.spec.width x
  let y1 := wrap_coord wrap b.spec.y b.spec.height y
  let z1 := wrap_coord wrap b.spec.z b.spec.depth z
  (decide (b.spec.contains x1 y1 z1), x1, y1, z1)

/-- Modelled from the spec: `ImageBuf::getchannel(x, y, z, c, wrap)` is
declared in the header but implemented out of line.  Per the header
documentation and §4.2 of the spec: a channel index outside
0..nchannels-1 yields 0; coordinates outside the data window are
remapped by the wrap mode; if the remapped coordinate still lies
outside the window the result falls back to black (0); otherwise the
stored value is returned (converted to float).  It never mutates the
buffer. -/
def ImageBuf.getchannel (b : ImageBuf) (x y z c : Int) (wrap : WrapMode) : Int :=
  if c < 0 ∨ c ≥ b.spec.nchannels then 0
  else if b.spec.contains x y z then b.pixels x y z c
  else
    let r := b.do_wrap x y z wrap
    if r.1 then b.pixels r.2.1 r.2.2.1 r.2.2.2 c else 0

namespace IteratorBase

/-- Modelled from the spec: `IteratorBase::make_writable` ("do the dirty
work of making the IB writable") is implemented out of line: it promotes
the underlying buffer to writable local storage, after which the cursor
re-derives its cached storage flags and local pointer for its current
position. -/
def cursor_make_writable (it : IteratorBase) : IteratorBase :=
  let b := (it.m_ib.make_writable).2
  let it1 := { it with
    m_ib := b
    m_localpixels := decide (b.storage = IBStorage.LOCALBUFFER
      ∨ b.storage = IBStorage.APPBUFFER)
    m_tile := false }
  it1.pos it1.m_x it1.m_y it1.m_z

/-- Translated from the header: `ensure_writable()` — if the buffer's
storage is `IMAGECACHE`, make it writable. -/
def ensure_writable (it : IteratorBase) : IteratorBase :=
  if it.m_ib.storage = IBStorage.IMAGECACHE then it.cursor_make_writable else it

/-- Modelled from the spec: the `IteratorBase` constructor taking an
explicit range is implemented out of line via `init_ib` (cache the
image's data-window bounds, channel count, pixel stride, storage and
deep flags from the buffer, first making the buffer writable when write
access is requested) followed by positioning at the first pixel
(xbegin, ybegin, zbegin) of the range. -/
def mk_range (ib : ImageBuf) (xbegin xend ybegin yend zbegin zend : Int)
    (wrap : WrapMode) (write : Bool) : IteratorBase :=
  let b := if write then (ib.make_writable).2 else ib
  let it : IteratorBase := {
    m_ib := b
    m_valid := false
    m_exists := false
    m_deep := b.deep
    m_localpixels := decide (b.storage = IBStorage.LOCALBUFFER
      ∨ b.storage = IBStorage.APPBUFFER)
    m_img_xbegin := b.spec.x
    m_img_xend := b.spec.x + b.spec.width
    m_img_ybegin := b.spec.y
    m_img_yend := b.spec.y + b.spec.height
    m_img_zbegin := b.spec.z
    m_img_zend := b.spec.z + b.spec.depth
    m_rng_xbegin := xbegin
    m_rng_xend := xend
    m_rng_ybegin := ybegin
    m_rng_yend := yend
    m_rng_zbegin := zbegin
    m_rng_zend := zend
    m_x := xbegin
    m_y := ybegin
    m_z := zbegin
    m_tile := false
    m_tilexbegin := 0
    m_tileybegin := 0
    m_tilezbegin := 0
    m_tilexend := 0
    m_nchannels := b.spec.nchannels
    m_pixel_stride := b.pixel_stride
    m_proxydata := blackaddr
    m_wrap := wrap
    m_readerror := false
    m_pixeltype := b.pixformat }
  it.pos xbegin ybegin zbegin

/-- Modelled from the spec: the `IteratorBase` constructor from just a
buffer makes the iteration range the full image data window
(`range_is_image`) and starts at its upper left pixel. -/
def mk_image (ib : ImageBuf) (wrap : WrapMode) (write : Bool) : IteratorBase :=
  mk_range ib ib.spec.x (ib.spec.x + ib.spec.width) ib.spec.y
    (ib.spec.y + ib.spec.height) ib.spec.z (ib.spec.z + ib.spec.depth)
    wrap write

/-- Modelled from the spec: the `IteratorBase` copy constructor
(declared in the header, implemented out of line) copies the whole
cursor state: same buffer, same iteration range, same position and
flags. -/
def copy_ctor (i : IteratorBase) : IteratorBase := i

end IteratorBase

namespace Iterator

/-- Translated from the header: the copy constructor of the writable
`Iterator` template delegates to `IteratorBase(i.m_ib, i.m_wrap, true)`
— the whole-image constructor — and not to the `IteratorBase` copy
constructor.  (`Iterator` adds no state of its own to `IteratorBase`.) -/
def copy_ctor (i : IteratorBase) : IteratorBase :=
  IteratorBase.mk_image i.m_ib i.m_wrap true

end Iterator

end OIIO

namespace OIIO

/-- Helper: a concrete buffer with origin (0,0,0), the given storage,
resolution, channel count, pixel content and allocation/read outcome,
used to instantiate theorems at concrete inputs. -/
def mkBuf (st : IBStorage) (w h d nch : Int)
    (p : Int → Int → Int → Int → Int) (ok : Bool) : ImageBuf :=
  { storage := st
    spec := { x := 0, y := 0, z := 0, width := w, height := h, depth := d,
              nchannels := nch }
    pixformat := TypeDesc.FLOAT
    deep := false
    pixels := p
    pixel_stride := 4 * nch
    scanline_stride := 4 * nch * w
    z_stride := 4 * nch * w * h
    tilewidth := 2
    tileheight := 2
    tiledepth := 1
    allocReadOk := ok }

/-- Helper: `make_writable` leaves any non-cache-backed buffer untouched
and reports success. -/
theorem make_writable_noop (b : ImageBuf) (h : b.storage ≠ IBStorage.IMAGECACHE) :
    b.make_writable = (true, b) := by
  unfold ImageBuf.make_writable
  simp [h]

/-- C3: `make_writable` is a no-op returning true whenever storage is
not `IMAGECACHE`; on an `IMAGECACHE` buffer it performs a full read into
freshly allocated local memory (storage becomes `LOCALBUFFER`, pixel
content preserved) and it is idempotent — after a successful call the
second call returns true with the same pixel content — and it returns
false only on allocation/read failure. -/
theorem make_writable_contract :
    (∀ b : ImageBuf, b.storage ≠ IBStorage.IMAGECACHE → b.make_writable = (true, b))
    ∧ (∀ b : ImageBuf, b.storage = IBStorage.IMAGECACHE → b.allocReadOk = true →
        (b.make_writable).1 = true
          ∧ (b.make_writable).2.storage = IBStorage.LOCALBUFFER)
    ∧ (∀ b : ImageBuf, (b.make_writable).1 = true →
        (b.make_writable).2.make_writable = (true, (b.make_writable).2)
          ∧ ∀ x y z c : Int,
              ((b.make_writable).2).pixels x y z c = b.pixels x y z c)
    ∧ (∀ b : ImageBuf, (b.make_writable).1 = false ↔
        (b.storage = IBStorage.IMAGECACHE ∧ b.allocReadOk = false)) := by
  refine ⟨fun b h => make_writable_noop b h, fun b hs hok => ?_, fun b h => ?_, fun b => ?_⟩
  · unfold ImageBuf.make_writable
    simp [hs, hok]
  · unfold ImageBuf.make_writable at h ⊢
    by_cases hs : b.storage = IBStorage.IMAGECACHE
    · by_cases hok : b.allocReadOk
      · simp [hs, hok]
      · simp [hs, hok] at h
    · simp [hs]
  · unfold ImageBuf.make_writable
    by_cases hs : b.storage = IBStorage.IMAGECACHE
    · by_cases hok : b.allocReadOk
      · simp [hs, hok]
      · simp [hs, hok]
    · simp [hs]

/-- Witness for C3: instantiate the contract at a concrete cache-backed
buffer whose read succeeds, and at a concrete local buffer. -/
theorem make_writable_contract_witness :
    ((mkBuf IBStorage.LOCALBUFFER 4 4 1 1 (fun x y _ _ => x + 10 * y) true).make_writable
        = (true, mkBuf IBStorage.LOCALBUFFER 4 4 1 1 (fun x y _ _ => x + 10 * y) true))
    ∧ ((mkBuf IBStorage.IMAGECACHE 4 4 1 1 (fun x y _ _ => x + 10 * y) true).make_writable).1 = true
    ∧ ((mkBuf IBStorage.IMAGECACHE 4 4 1 1 (fun x y _ _ => x + 10 * y) true).make_writable).2.storage
        = IBStorage.LOCALBUFFER := by
  refine ⟨make_writable_contract.1 _ (by decide), ?_, ?_⟩
  · exact (make_writable_contract.2.1 _ rfl rfl).1
  · exact (make_writable_contract.2.1 _ rfl rfl).2

/-- C7: `copy(src, format)` — on an `APPBUFFER` destination it fails
unless resolution and channel count already match `src`, in which case
it succeeds, converts to the app buffer's existing data type, and the
`format` parameter is ignored; on any other destination storage, local
memory is (re)allocated and the call succeeds exactly when allocation
succeeds, entering `LOCALBUFFER`. -/
theorem copy_contract :
    (∀ dst src : ImageBuf, ∀ f : TypeDesc, dst.storage = IBStorage.APPBUFFER →
        ¬(dst.spec.width = src.spec.width ∧ dst.spec.height = src.spec.height
            ∧ dst.spec.depth = src.spec.depth
            ∧ dst.spec.nchannels = src.spec.nchannels) →
        dst.copy src f = (false, dst))
    ∧ (∀ dst src : ImageBuf, ∀ f : TypeDesc, dst.storage = IBStorage.APPBUFFER →
        (dst.spec.width = src.spec.width ∧ dst.spec.height = src.spec.height
            ∧ dst.spec.depth = src.spec.depth
            ∧ dst.spec.nchannels = src.spec.nchannels) →
        (dst.copy src f).1 = true
          ∧ (dst.copy src f).2.pixformat = dst.pixformat
          ∧ (∀ x y z c : Int, (dst.copy src f).2.pixels x y z c
              = convert_value src.pixformat dst.pixformat (src.pixels x y z c))
          ∧ (∀ f2 : TypeDesc, dst.copy src f = dst.copy src f2))
    ∧ (∀ dst src : ImageBuf, ∀ f : TypeDesc, dst.storage ≠ IBStorage.APPBUFFER →
        ((dst.copy src f).1 = true ↔ dst.allocReadOk = true)
          ∧ (dst.allocReadOk = true →
              (dst.copy src f).2.storage = IBStorage.LOCALBUFFER)) := by
  refine ⟨fun dst src f hs hm => ?_, fun dst src f hs hm => ?_, fun dst src f hs => ?_⟩
  · unfold ImageBuf.copy
    simp [hs, hm]
  · unfold ImageBuf.copy
    simp [hs, hm]
  · unfold ImageBuf.copy
    by_cases hok : dst.allocReadOk
    · simp [hs, hok]
    · simp [hs, hok]

/-- Witness for C7: a concrete app-owned 2×2 destination rejects a 4×4
source, accepts a 2×2 source ignoring the format argument, and a
concrete local-storage destination succeeds by reallocation. -/
theorem copy_contract_witness :
    ((mkBuf IBStorage.APPBUFFER 2 2 1 1 (fun _ _ _ _ => 7) true).copy
        (mkBuf IBStorage.LOCALBUFFER 4 4 1 1 (fun _ _ _ _ => 1) true) TypeDesc.UNKNOWN
      = (false, mkBuf IBStorage.APPBUFFER 2 2 1 1 (fun _ _ _ _ => 7) true))
    ∧ (((mkBuf IBStorage.APPBUFFER 2 2 1 1 (fun _ _ _ _ => 7) true).copy
        (mkBuf IBStorage.LOCALBUFFER 2 2 1 1 (fun _ _ _ _ => 1) true) TypeDesc.UINT8).1 = true)
    ∧ (((mkBuf IBStorage.LOCALBUFFER 2 2 1 1 (fun _ _ _ _ => 7) true).copy
        (mkBuf IBStorage.LOCALBUFFER 4 4 1 1 (fun _ _ _ _ => 1) true) TypeDesc.UNKNOWN).1 = true) := by
  refine ⟨?_, ?_, ?_⟩
  · exact copy_contract.1 _ _ _ rfl (by decide)
  · exact (copy_contract.2.1 _ _ _ rfl (by refine ⟨rfl, rfl, rfl, rfl⟩)).1
  · exact ((copy_contract.2.2 _ _ _ (by decide)).1).mpr rfl

end OIIO

namespace OIIO

/-- C4: `copy_pixels(src)` copies, with conversion to the destination's
data type, exactly the pixels and channels lying in the overlap of the
source and destination data windows; destination pixels not present in
the source data window are set to 0; the destination keeps its own spec
(so source pixels outside it are not copied anywhere) and pixels outside
the destination window are untouched. -/
theorem copy_pixels_contract :
    ∀ dst src : ImageBuf,
      ((dst.copy_pixels src).spec = dst.spec
          ∧ (dst.copy_pixels src).storage = dst.storage)
      ∧ (∀ x y z c : Int, dst.spec.contains x y z → src.spec.contains x y z →
          0 ≤ c → c < dst.spec.nchannels → c < src.spec.nchannels →
          (dst.copy_pixels src).pixels x y z c
            = convert_value src.pixformat dst.pixformat (src.pixels x y z c))
      ∧ (∀ x y z c : Int, dst.spec.contains x y z → ¬ src.spec.contains x y z →
          0 ≤ c → c < dst.spec.nchannels →
          (dst.copy_pixels src).pixels x y z c = 0)
      ∧ (∀ x y z c : Int, ¬ dst.spec.contains x y z →
          (dst.copy_pixels src).pixels x y z c = dst.pixels x y z c) := by
  intro dst src
  refine ⟨⟨rfl, rfl⟩, fun x y z c hd hsrc hc0 hcd hcs => ?_,
    fun x y z c hd hsrc hc0 hcd => ?_, fun x y z c hd => ?_⟩
  · unfold ImageBuf.copy_pixels
    simp only []
    rw [if_pos ⟨hd, hc0, hcd⟩, if_pos ⟨hsrc, hcs⟩]
  · unfold ImageBuf.copy_pixels
    simp only []
    rw [if_pos ⟨hd, hc0, hcd⟩, if_neg (by intro h; exact hsrc h.1)]
  · unfold ImageBuf.copy_pixels
    simp only []
    rw [if_neg (by intro h; exact hd h.1)]

/-- Witness for C4: between a 4×4 one-channel source holding value
`x + 10*y + 1` and a 2×2 one-channel destination (both with origin
(0,0)), only the overlapping 2×2 region is copied: pixel (1,1) of the
destination receives the source value 12, and the destination's data
window is unchanged. -/
theorem copy_pixels_contract_witness :
    ((mkBuf IBStorage.LOCALBUFFER 2 2 1 1 (fun _ _ _ _ => 7) true).copy_pixels
        (mkBuf IBStorage.LOCALBUFFER 4 4 1 1 (fun x y _ _ => x + 10 * y + 1) true)).pixels 1 1 0 0
      = 12
    ∧ ((mkBuf IBStorage.LOCALBUFFER 2 2 1 1 (fun _ _ _ _ => 7) true).copy_pixels
        (mkBuf IBStorage.LOCALBUFFER 4 4 1 1 (fun x y _ _ => x + 10 * y + 1) true)).spec
      = (mkBuf IBStorage.LOCALBUFFER 2 2 1 1 (fun _ _ _ _ => 7) true).spec := by
  constructor
  · have h := (copy_pixels_contract
      (mkBuf IBStorage.LOCALBUFFER 2 2 1 1 (fun _ _ _ _ => 7) true)
      (mkBuf IBStorage.LOCALBUFFER 4 4 1 1 (fun x y _ _ => x + 10 * y + 1) true)).2.1
      1 1 0 0 (by decide) (by decide) (by decide) (by decide) (by decide)
    rw [h]
    decide
  · exact ((copy_pixels_contract _ _).1).1

/-- Helper: a 4×4 single-channel image with data window beginning at
(0,0,0), local storage, and the given pixel content. -/
def buf4 (p : Int → Int → Int → Int → Int) : ImageBuf :=
  mkBuf IBStorage.LOCALBUFFER 4 4 1 1 p true

/-- C5: reading pixel (-1,0) of a 4×4 single-channel image with data
window origin (0,0): WrapBlack yields 0 with no stored pixel altered;
WrapClamp yields the value stored at (0,0); WrapPeriodic the value at
(3,0); WrapMirror the value at (0,0); and for any wrap mode, whenever
the coordinate remapping still lands outside the data window the result
is the black value 0. -/
theorem wrap_modes_contract :
    (∀ p : Int → Int → Int → Int → Int,
        (buf4 p).getchannel (-1) 0 0 0 WrapMode.WrapBlack = 0
        ∧ (buf4 p).pixels = p
        ∧ (buf4 p).getchannel (-1) 0 0 0 WrapMode.WrapClamp = p 0 0 0 0
        ∧ (buf4 p).getchannel (-1) 0 0 0 WrapMode.WrapPeriodic = p 3 0 0 0
        ∧ (buf4 p).getchannel (-1) 0 0 0 WrapMode.WrapMirror = p 0 0 0 0)
    ∧ (∀ b : ImageBuf, ∀ x y z c : Int, ∀ w : WrapMode,
        ¬ b.spec.contains x y z → (b.do_wrap x y z w).1 = false →
        b.getchannel x y z c w = 0) := by
  constructor
  · intro p
    refine ⟨?_, rfl, ?_, ?_, ?_⟩ <;>
      simp [buf4, mkBuf, ImageBuf.getchannel, ImageBuf.do_wrap, wrap_coord,
        ImageSpec.contains]
  · intro b x y z c w hout hwr
    unfold ImageBuf.getchannel
    by_cases hc : c < 0 ∨ c ≥ b.spec.nchannels
    · rw [if_pos hc]
    · rw [if_neg hc, if_neg hout]
      simp only [hwr]
      rw [if_neg (by simp [hwr])]

/-- Witness for C5: instantiate the general fallback-to-black clause at
a concrete buffer and coordinate: WrapBlack remapping leaves (-1,0)
outside the 4×4 window, so the read yields 0. -/
theorem wrap_modes_contract_witness :
    (buf4 (fun x y _ _ => x + 10 * y + 1)).getchannel (-1) 0 0 0 WrapMode.WrapBlack = 0 := by
  exact wrap_modes_contract.2 (buf4 (fun x y _ _ => x + 10 * y + 1))
    (-1) 0 0 0 WrapMode.WrapBlack (by decide) (by decide)

/-- Helper: same-type element conversion is the identity. -/
theorem convert_value_self (t : TypeDesc) (v : Int) : convert_value t t v = v := by
  unfold convert_value
  simp

/-- C6: on a buffer whose storage is `LOCALBUFFER` or `APPBUFFER`,
`get_pixels` over a ROI into a caller buffer of the same data type
followed by `set_pixels` of that same data over the same ROI leaves
every stored pixel value exactly as it was. -/
theorem get_set_pixels_roundtrip :
    ∀ b : ImageBuf, ∀ roi : ROI,
      b.storage = IBStorage.LOCALBUFFER ∨ b.storage = IBStorage.APPBUFFER →
      ∀ x y z c : Int,
        (b.set_pixels roi b.pixformat (b.get_pixels roi b.pixformat)).pixels x y z c
          = b.pixels x y z c := by
  intro b roi _ x y z c
  unfold ImageBuf.set_pixels ImageBuf.get_pixels
  simp only []
  by_cases h : roi.contains x y z ∧ roi.chbegin ≤ c ∧ c < roi.chend
      ∧ b.spec.contains x y z ∧ 0 ≤ c ∧ c < b.spec.nchannels
  · rw [if_pos h, if_pos ⟨h.1, h.2.1, h.2.2.1⟩, if_pos ⟨h.2.2.2.1, h.2.2.2.2⟩,
      convert_value_self, convert_value_self]
  · rw [if_neg h]

/-- Witness for C6: round-trip over the whole window of a concrete 4×4
local buffer reproduces the stored value at (2,3). -/
theorem get_set_pixels_roundtrip_witness :
    ((buf4 (fun x y _ _ => x + 10 * y + 1)).set_pixels
        ⟨0, 4, 0, 4, 0, 1, 0, 1⟩ (buf4 (fun x y _ _ => x + 10 * y + 1)).pixformat
        ((buf4 (fun x y _ _ => x + 10 * y + 1)).get_pixels
          ⟨0, 4, 0, 4, 0, 1, 0, 1⟩ (buf4 (fun x y _ _ => x + 10 * y + 1)).pixformat)).pixels 2 3 0 0
      = 33 := by
  have h := get_set_pixels_roundtrip (buf4 (fun x y _ _ => x + 10 * y + 1))
    ⟨0, 4, 0, 4, 0, 1, 0, 1⟩ (Or.inl rfl) 2 3 0 0
  rw [h]
  decide

/-- C10: the linear-index overload `setpixel(i, pixel)` writes the pixel
at coordinates (spec.x + i % width, spec.y + i / width, 0): it equals
the three-coordinate `setpixel` at those coordinates with z = 0, it
never changes any pixel with z ≠ 0, and for i ≥ width*height the
computed y coordinate lies at or beyond the end of the data window's y
range. -/
theorem setpixel_linear_contract :
    ∀ b : ImageBuf, ∀ i : Int, ∀ pixel : List Int,
      0 ≤ i → 0 < b.spec.width →
      (b.setpixel_i i pixel
          = b.setpixel3 (b.spec.x + i % b.spec.width) (b.spec.y + i / b.spec.width) 0 pixel)
      ∧ (∀ x y z c : Int, z ≠ 0 →
          (b.setpixel_i i pixel).pixels x y z c = b.pixels x y z c)
      ∧ (b.spec.width * b.spec.height ≤ i →
          b.spec.y + b.spec.height ≤ b.spec.y + i / b.spec.width) := by
  intro b i pixel hi hw
  have htm : Int.tmod i b.spec.width = i % b.spec.width := by
    rw [Int.tmod_eq_emod hi (le_of_lt hw)]
  have htd : Int.tdiv i b.spec.width = i / b.spec.width := by
    rw [Int.tdiv_eq_ediv hi (le_of_lt hw)]
  refine ⟨?_, fun x y z c hz => ?_, fun hwh => ?_⟩
  · unfold ImageBuf.setpixel_i ImageBuf.setpixel2
    rw [htm, htd]
  · unfold ImageBuf.setpixel_i ImageBuf.setpixel2 ImageBuf.setpixel3
    simp only []
    rw [if_neg (by intro h; exact hz h.2.2.1)]
  · have : b.spec.height ≤ i / b.spec.width := by
      rw [Int.le_ediv_iff_mul_le hw]
      linarith [mul_comm b.spec.width b.spec.height]
    linarith

/-- Witness for C10: on a concrete 4×4×2 volumetric buffer (depth 2),
linear index 5 writes at (1,1,0); every pixel with z = 1 is untouched;
and linear index 16 = width*height computes a y coordinate at the end
of the y range. -/
theorem setpixel_linear_contract_witness :
    ((mkBuf IBStorage.LOCALBUFFER 4 4 2 1 (fun _ _ _ _ => 0) true).setpixel_i 5 [9]
        = (mkBuf IBStorage.LOCALBUFFER 4 4 2 1 (fun _ _ _ _ => 0) true).setpixel3 1 1 0 [9])
    ∧ (((mkBuf IBStorage.LOCALBUFFER 4 4 2 1 (fun _ _ _ _ => 0) true).setpixel_i 5 [9]).pixels 1 1 1 0
        = 0)
    ∧ ((4 : Int) + 4 ≤ 0 + 16 / 4 + 4) := by
  have h := setpixel_linear_contract
    (mkBuf IBStorage.LOCALBUFFER 4 4 2 1 (fun _ _ _ _ => 0) true) 5 [9]
    (by decide) (by decide)
  have h16 := setpixel_linear_contract
    (mkBuf IBStorage.LOCALBUFFER 4 4 2 1 (fun _ _ _ _ => 0) true) 16 [9]
    (by decide) (by decide)
  refine ⟨?_, ?_, ?_⟩
  · have := h.1
    norm_num at this ⊢
    exact this
  · have := h.2.1 1 1 1 0 (by decide)
    rw [this]
    rfl
  · have := h16.2.2 (by decide)
    simp [mkBuf] at this
    omega

end OIIO

namespace OIIO

/-- Helper: a concrete whole-image read-only cursor over a 4×2×1
single-channel local buffer — iteration range x∈[0,4), y∈[0,2),
z∈[0,1), starting at the first pixel (0,0,0). -/
def itC1 : IteratorBase :=
  IteratorBase.mk_image (mkBuf IBStorage.LOCALBUFFER 4 2 1 1 (fun _ _ _ _ => 0) true)
    WrapMode.WrapBlack false

/-- C1: `done()` holds iff `valid()` is false and the cursor's (x,y,z)
equals exactly (rangeXBegin, rangeYBegin, rangeZEnd); and for the range
x∈[0,4), y∈[0,2), starting at the first pixel, among the nine positions
visited by eight increments `done()` holds exactly once — at the last,
reached by the eighth increment. -/
theorem done_iff_sentinel :
    (∀ it : IteratorBase, it.done = true ↔
      (it.m_valid = false ∧ it.m_x = it.m_rng_xbegin ∧ it.m_y = it.m_rng_ybegin
        ∧ it.m_z = it.m_rng_zend))
    ∧ (∀ k : Nat, k < 8 → (itC1.incN k).done = false)
    ∧ (itC1.incN 8).done = true := by
  refine ⟨fun it => ?_, fun k hk => ?_, by decide⟩
  · unfold IteratorBase.done
    simp [Bool.and_eq_true, beq_iff_eq, and_assoc]
  · interval_cases k <;> decide

/-- Witness for C1: the cursor is not done after three increments, and
done after eight. -/
theorem done_iff_sentinel_witness :
    (itC1.incN 3).done = false ∧ (itC1.incN 8).done = true :=
  ⟨done_iff_sentinel.2.1 3 (by decide), done_iff_sentinel.2.2⟩

end OIIO

namespace OIIO

/-- The cursor state reached from `it` by the x-increment fast path:
x incremented, proxy pointer advanced by one pixel stride, and no other
field changed (no bounds recompute). -/
def IteratorBase.fast_state (it : IteratorBase) : IteratorBase :=
  { it with
      m_x := it.m_x + 1
      m_proxydata := it.m_proxydata + it.m_pixel_stride }

/-- The invalid done-sentinel state: position (rangeXBegin, rangeYBegin,
rangeZEnd) with `valid` cleared and everything else unchanged. -/
def IteratorBase.done_state (it : IteratorBase) : IteratorBase :=
  { it with
      m_x := it.m_rng_xbegin
      m_y := it.m_rng_ybegin
      m_z := it.m_rng_zend
      m_valid := false }

/-- C2: `operator++` increments x.  With the new x still below the
range's x-end: if the previous position existed, only the proxy pointer
advances by one pixel stride (the `pos_xincr` fast path) — unless the
new x crosses the current tile's x-extent (or the tile is absent) in
cached mode, which falls back to a retile recompute, or runs off the
local buffer's right edge, which falls back to the past-end bounds
recompute; a previous position that did not exist takes a full `pos`
call.  On row overflow x wraps to the range's x-begin and y (and, on y
overflow, z) advance via a full `pos` call; overflowing the final z
plane clears `valid` with the position left at exactly
(rangeXBegin, rangeYBegin, rangeZEnd), which is the done sentinel. -/
theorem inc_dispatch :
    (∀ it : IteratorBase, it.m_x + 1 < it.m_rng_xend → it.m_exists = true →
        it.m_localpixels = true → it.m_x + 1 < it.m_img_xend →
        it.inc = it.fast_state)
    ∧ (∀ it : IteratorBase, it.m_x + 1 < it.m_rng_xend → it.m_exists = true →
        it.m_localpixels = false → it.m_deep = false →
        it.m_x + 1 < it.m_img_xend → it.m_x + 1 < it.m_tilexend → it.m_tile = true →
        it.inc = it.fast_state)
    ∧ (∀ it : IteratorBase, it.m_x + 1 < it.m_rng_xend → it.m_exists = true →
        it.m_localpixels = false → it.m_deep = false →
        ¬(it.m_x + 1 < it.m_img_xend ∧ it.m_x + 1 < it.m_tilexend ∧ it.m_tile = true) →
        it.inc = { it.fast_state.retile (decide (it.m_x + 1 < it.m_img_xend)) with
                     m_exists := decide (it.m_x + 1 < it.m_img_xend) })
    ∧ (∀ it : IteratorBase, it.m_x + 1 < it.m_rng_xend → it.m_exists = true →
        it.m_localpixels = true → it.m_img_xend ≤ it.m_x + 1 →
        it.inc = it.fast_state.pos_xincr_local_past_end)
    ∧ (∀ it : IteratorBase, it.m_x + 1 < it.m_rng_xend → it.m_exists = false →
        it.inc = it.pos (it.m_x + 1) it.m_y it.m_z)
    ∧ (∀ it : IteratorBase, it.m_rng_xend ≤ it.m_x + 1 → it.m_y + 1 < it.m_rng_yend →
        it.inc = it.pos it.m_rng_xbegin (it.m_y + 1) it.m_z)
    ∧ (∀ it : IteratorBase, it.m_rng_xend ≤ it.m_x + 1 → it.m_rng_yend ≤ it.m_y + 1 →
        it.m_z + 1 < it.m_rng_zend →
        it.inc = it.pos it.m_rng_xbegin it.m_rng_ybegin (it.m_z + 1))
    ∧ (∀ it : IteratorBase, it.m_rng_xend ≤ it.m_x + 1 → it.m_rng_yend ≤ it.m_y + 1 →
        it.m_rng_zend ≤ it.m_z + 1 → it.m_z < it.m_rng_zend →
        it.inc = it.done_state ∧ (it.inc).done = true) := by
  refine ⟨fun it hx he hl hend => ?_, fun it hx he hl hd hend ht1 ht => ?_,
    fun it hx he hl hd hcross => ?_, fun it hx he hl hend => ?_,
    fun it hx he => ?_, fun it hx hy => ?_, fun it hx hy hz => ?_,
    fun it hx hy hz hzlt => ?_⟩
  · unfold IteratorBase.inc IteratorBase.pos_xincr IteratorBase.fast_state
    simp only []
    rw [if_pos hx, if_pos he, if_pos hl, if_neg (not_le.mpr hend)]
  · unfold IteratorBase.inc IteratorBase.pos_xincr IteratorBase.fast_state
    simp only []
    rw [if_pos hx, if_pos he, if_neg (by rw [hl]; simp)]
    rw [if_pos (by rw [hd]; simp)]
    rw [if_neg (by simp [hend, ht1, ht])]
  · unfold IteratorBase.inc IteratorBase.pos_xincr IteratorBase.fast_state
    simp only []
    rw [if_pos hx, if_pos he, if_neg (by rw [hl]; simp)]
    rw [if_pos (by rw [hd]; simp)]
    rw [if_pos (by
      cases hti : it.m_tile
      · simp [hti]
      · have hna : ¬(it.m_x + 1 < it.m_img_xend ∧ it.m_x + 1 < it.m_tilexend) :=
          fun hh => hcross ⟨hh.1, hh.2, hti⟩
        rcases not_and_or.mp hna with hi | hj
        · simp [hi, hti]
        · simp [hj, hti])]
  · unfold IteratorBase.inc IteratorBase.pos_xincr IteratorBase.fast_state
    simp only []
    rw [if_pos hx, if_pos he, if_pos hl, if_pos hend]
  · unfold IteratorBase.inc
    simp only []
    rw [if_pos hx, if_neg (by rw [he]; simp)]
    rfl
  · unfold IteratorBase.inc
    simp only []
    rw [if_neg (not_lt.mpr hx), if_neg (not_le.mpr hy)]
    rfl
  · unfold IteratorBase.inc
    simp only []
    rw [if_neg (not_lt.mpr hx), if_pos hy, if_neg (not_le.mpr hz)]
    rfl
  · have hzeq : it.m_z + 1 = it.m_rng_zend := le_antisymm (by omega) hz
    constructor
    · unfold IteratorBase.inc IteratorBase.done_state
      simp only []
      rw [if_neg (not_lt.mpr hx), if_pos hy, if_pos (by omega)]
      rw [hzeq]
    · unfold IteratorBase.inc IteratorBase.done
      simp only []
      rw [if_neg (not_lt.mpr hx), if_pos hy, if_pos (by omega)]
      simp [hzeq]

/-- Witness for C2: concrete instantiations — the local fast path
advances only the proxy pointer of the concrete cursor, and the
final-plane overflow from its last pixel lands invalid on the done
sentinel. -/
theorem inc_dispatch_witness :
    itC1.inc = itC1.fast_state ∧ ((itC1.incN 7).inc).done = true := by
  constructor
  · exact inc_dispatch.1 itC1 (by decide) (by decide) (by decide) (by decide)
  · exact (inc_dispatch.2.2.2.2.2.2.2 (itC1.incN 7)
      (by decide) (by decide) (by decide) (by decide)).2

end OIIO

namespace OIIO

/-- Helper: retiling changes only the tile bookkeeping and the proxy
pointer — buffer, wrap mode, iteration range and position survive. -/
theorem retile_preserves (it : IteratorBase) (e : Bool) :
    (it.retile e).m_ib = it.m_ib ∧ (it.retile e).m_wrap = it.m_wrap
    ∧ (it.retile e).m_rng_xbegin = it.m_rng_xbegin
    ∧ (it.retile e).m_rng_xend = it.m_rng_xend
    ∧ (it.retile e).m_rng_ybegin = it.m_rng_ybegin
    ∧ (it.retile e).m_rng_yend = it.m_rng_yend
    ∧ (it.retile e).m_rng_zbegin = it.m_rng_zbegin
    ∧ (it.retile e).m_rng_zend = it.m_rng_zend
    ∧ (it.retile e).m_x = it.m_x ∧ (it.retile e).m_y = it.m_y
    ∧ (it.retile e).m_z = it.m_z := by
  unfold IteratorBase.retile
  cases e <;> simp

/-- Helper: `pos x y z` puts the cursor at (x,y,z), keeping the buffer,
the wrap mode and the iteration range unchanged. -/
theorem pos_fields (it : IteratorBase) (x y z : Int) :
    (it.pos x y z).m_ib = it.m_ib ∧ (it.pos x y z).m_wrap = it.m_wrap
    ∧ (it.pos x y z).m_rng_xbegin = it.m_rng_xbegin
    ∧ (it.pos x y z).m_rng_xend = it.m_rng_xend
    ∧ (it.pos x y z).m_rng_ybegin = it.m_rng_ybegin
    ∧ (it.pos x y z).m_rng_yend = it.m_rng_yend
    ∧ (it.pos x y z).m_rng_zbegin = it.m_rng_zbegin
    ∧ (it.pos x y z).m_rng_zend = it.m_rng_zend
    ∧ (it.pos x y z).m_x = x ∧ (it.pos x y z).m_y = y
    ∧ (it.pos x y z).m_z = z := by
  unfold IteratorBase.pos
  simp only []
  split_ifs
  · simp
  · exact ⟨(retile_preserves _ true).1, (retile_preserves _ true).2.1,
      (retile_preserves _ true).2.2.1, (retile_preserves _ true).2.2.2.1,
      (retile_preserves _ true).2.2.2.2.1, (retile_preserves _ true).2.2.2.2.2.1,
      (retile_preserves _ true).2.2.2.2.2.2.1, (retile_preserves _ true).2.2.2.2.2.2.2.1,
      (retile_preserves _ true).2.2.2.2.2.2.2.2.1, (retile_preserves _ true).2.2.2.2.2.2.2.2.2.1,
      (retile_preserves _ true).2.2.2.2.2.2.2.2.2.2⟩
  · simp
  · simp

/-- Helper: a concrete writable cursor over the sub-range x∈[1,3),
y∈[1,3) of a 4×4 local buffer, advanced one step — its range and
position both differ from the whole-image start. -/
def it9 : IteratorBase :=
  (IteratorBase.mk_range (buf4 (fun x y _ _ => x + 10 * y + 1)) 1 3 1 3 0 1
    WrapMode.WrapClamp true).inc

/-- C9: the writable `Iterator` copy constructor builds a fresh iterator
over the same ImageBuf with the same wrap mode, whose iteration range is
the whole image and whose position is the start of that range — it does
not inherit the source iterator's range or position (the `IteratorBase`
copy constructor, which it does not invoke, would copy both). -/
theorem iterator_copy_resets_range :
    (∀ i : IteratorBase, i.m_ib.storage ≠ IBStorage.IMAGECACHE →
      (Iterator.copy_ctor i).m_ib = i.m_ib
      ∧ (Iterator.copy_ctor i).m_wrap = i.m_wrap
      ∧ (Iterator.copy_ctor i).m_rng_xbegin = i.m_ib.spec.x
      ∧ (Iterator.copy_ctor i).m_rng_xend = i.m_ib.spec.x + i.m_ib.spec.width
      ∧ (Iterator.copy_ctor i).m_rng_ybegin = i.m_ib.spec.y
      ∧ (Iterator.copy_ctor i).m_rng_yend = i.m_ib.spec.y + i.m_ib.spec.height
      ∧ (Iterator.copy_ctor i).m_rng_zbegin = i.m_ib.spec.z
      ∧ (Iterator.copy_ctor i).m_rng_zend = i.m_ib.spec.z + i.m_ib.spec.depth
      ∧ (Iterator.copy_ctor i).m_x = i.m_ib.spec.x
      ∧ (Iterator.copy_ctor i).m_y = i.m_ib.spec.y
      ∧ (Iterator.copy_ctor i).m_z = i.m_ib.spec.z)
    ∧ (IteratorBase.copy_ctor it9 = it9
        ∧ (Iterator.copy_ctor it9).m_x ≠ it9.m_x
        ∧ (Iterator.copy_ctor it9).m_rng_xbegin ≠ it9.m_rng_xbegin) := by
  constructor
  · intro i h
    unfold Iterator.copy_ctor IteratorBase.mk_image IteratorBase.mk_range
    simp only [if_pos, make_writable_noop i.m_ib h]
    exact pos_fields _ _ _ _
  · refine ⟨rfl, by decide, by decide⟩

/-- Witness for C9: instantiating the general clause at the concrete
cursor `it9` (whose buffer has local storage), the copy starts at the
image origin (0,0,0) with the full 4×4 range. -/
theorem iterator_copy_resets_range_witness :
    (Iterator.copy_ctor it9).m_x = 0 ∧ (Iterator.copy_ctor it9).m_rng_xend = 4 := by
  have h := iterator_copy_resets_range.1 it9 (by decide)
  exact ⟨h.2.2.2.2.2.2.2.2.1, h.2.2.2.1⟩

end OIIO
